import Mathlib

/-!
Verification of the KoryFi chart-cache service
(src/services/chart-cache-api/main.py), a FastAPI + SQLite HTTP cache for
chart payloads keyed by (basket_id, year).

The embedding is shallow:
  * JSON documents are an inductive `Json` tree.  JSON numbers are `JsonNum`:
    a finite rational, or NaN, or plus or minus Infinity (`json.loads` parses
    the nonstandard literals `NaN`, `Infinity` and `-Infinity` by default).
    Every finite Python int/float denotes a rational and the json round trip
    on such values is exact; IEEE rounding of decimal literals is not
    modelled, a number denotes its exact decimal value.
  * The serialized `payload` TEXT column of the SQLite table is modelled by
    `PayloadText`: either text that is not valid JSON (`invalid`), or text
    that parses to a given JSON value (`json j`).  JSON printing is injective
    up to reparsing, so carrying the parsed value is faithful.
  * The SQLite table is a list of rows; `SELECT ... fetchone` is `List.find?`
    and `INSERT ... ON CONFLICT DO UPDATE` is `upsertRow`.
  * Wall-clock time (`int(time.time() * 1000)`) is passed to the handlers as
    an explicit `now_ms` argument.
  * Pydantic v2 validation runs in its default, lax mode: numeric strings
    coerce to `int` and `float` fields, bools coerce to numbers, non-finite
    floats are accepted (`allow_inf_nan` defaults to true), extra object
    fields are ignored (`extra` defaults to ignore).  Serialization of a
    model to JSON (both `model_dump_json` for storage and the JSON-mode dump
    FastAPI applies to the response) writes NaN and Infinity as `null`
    (`ser_json_inf_nan` defaults to null).
  * FastAPI binds and validates request parameters (including the PUT body
    against the `ChartPayload` pydantic model) before the endpoint function
    runs, answering 422 on failure; the route models `put_route` include that
    binding step around the endpoint function `upsert_chart`.  The GET route
    declares `response_model=ChartPayload`, so a response value that does not
    validate is answered as HTTP 500 by the framework.
-/

/-- A JSON number as produced by `json.loads`: a finite value (Python ints
and floats, exact as rationals), or one of the nonstandard constants NaN,
Infinity and -Infinity that `json.loads` accepts by default. -/
inductive JsonNum where
  | finite (q : ℚ)
  | posInf
  | negInf
  | nan
  deriving DecidableEq

/-- Tells whether a JSON number is a finite value. -/
def JsonNum.isFinite : JsonNum → Bool
  | .finite _ => true
  | _ => false

/-- A JSON document as `json.loads` produces it. -/
inductive Json where
  | str (s : String)
  | num (n : JsonNum)
  | bool (b : Bool)
  | null
  | arr (elems : List Json)
  | obj (fields : List (String × Json))

/-- Serialization of a validated `float` value back to JSON: pydantic v2
writes NaN and Infinity as `null` by default (`ser_json_inf_nan`), both in
`model_dump_json` and in the JSON-mode dump FastAPI applies to responses. -/
def JsonNum.serialize : JsonNum → Json
  | .finite q => .num (.finite q)
  | _ => .null

/-- From `class ChartPoint(BaseModel)`: `timestamp: int`,
`prices: Dict[str, float]`.  The dict is modelled as its association list in
insertion order (Python dicts preserve insertion order); a price is a
`JsonNum` because pydantic accepts NaN and Infinity floats by default. -/
structure ChartPoint where
  timestamp : Int
  prices : List (String × JsonNum)
  deriving DecidableEq

/-- From `class ChartPayload(BaseModel)`: `basketId: str`,
`data: List[ChartPoint]`. -/
structure ChartPayload where
  basketId : String
  data : List ChartPoint
  deriving DecidableEq

/-- The serialized payload TEXT stored in the `payload` column: either text
that does not parse as JSON, or text that parses to the JSON value `j`. -/
inductive PayloadText where
  | invalid (s : String)
  | json (j : Json)

/-- Model of `json.loads` applied to a stored payload text: fails exactly on
text that is not valid JSON. -/
def parseStored : PayloadText → Option Json
  | .invalid _ => none
  | .json j => some j

/-- One row of the `chart_cache` SQLite table
`(basket_id TEXT, year INTEGER, payload TEXT, updated_at_ms INTEGER)`. -/
structure Row where
  basket_id : String
  year : Int
  payload : PayloadText
  updated_at_ms : Int

/-- The `chart_cache` table, as its list of rows. -/
abbrev Table := List Row

/-- Tells whether a row has the given composite key. -/
def Row.hasKey (r : Row) (b : String) (y : Int) : Bool :=
  r.basket_id == b && r.year == y

/-- Model of
`SELECT payload FROM chart_cache WHERE basket_id = ? AND year = ?` with
`fetchone`: the first row matching the key, if any. -/
def selectRow (t : Table) (b : String) (y : Int) : Option Row :=
  t.find? (fun r => r.hasKey b y)

/-- Model of `INSERT INTO chart_cache ... ON CONFLICT(basket_id, year) DO
UPDATE SET payload = excluded.payload, updated_at_ms = excluded.updated_at_ms`:
replace the payload and timestamp of the conflicting row in place when one
exists, otherwise append a fresh row.  The composite primary key lets at
most one row conflict, so updating the first match is exact. -/
def upsertRow (b : String) (y : Int) (p : PayloadText) (ms : Int) :
    Table → Table
  | [] => [{ basket_id := b, year := y, payload := p, updated_at_ms := ms }]
  | r :: rs =>
    if r.hasKey b y then
      { r with payload := p, updated_at_ms := ms } :: rs
    else
      r :: upsertRow b y p ms rs

/-- Model of `init_db` on a fresh database file: `CREATE TABLE IF NOT EXISTS`
yields an empty table. -/
def initTable : Table := []

/-! ## JSON object / Python dict semantics

`json.loads` turns a JSON object into a Python dict: fields are inserted in
order, a repeated key keeps its first position and takes its last value. -/

/-- Python dict insertion: replace the value in place if the key is present,
otherwise append. -/
def dictInsert (l : List (String × Json)) (k : String) (v : Json) :
    List (String × Json) :=
  if l.any (fun kv => kv.1 == k) then
    l.map (fun kv => if kv.1 == k then (k, v) else kv)
  else
    l ++ [(k, v)]

/-- The Python dict a JSON object turns into under `json.loads`. -/
def jsonObjToDict (fields : List (String × Json)) : List (String × Json) :=
  fields.foldl (fun acc kv => dictInsert acc kv.1 kv.2) []

/-- Lookup in an association list (Python dict access). -/
def dictFind (l : List (String × Json)) (k : String) : Option Json :=
  (l.find? (fun kv => kv.1 == k)).map (fun kv => kv.2)

/-! ## Lax numeric strings

Pydantic v2 runs in lax mode by default: numeric strings coerce to `int`
and `float` fields.  The accepted string shapes, after trimming whitespace:
for `int`, an optional sign, digits with Python-style underscores, and
optionally a fraction made only of zeros (`"5"`, `" 5 "`, `"+7"`, `"1_0"`,
`"5.00"`; not `"5."`, `"1e2"`, `"5.5"`); for `float`, an optional sign
followed by `inf`/`infinity`/`nan` in any case, or a decimal with optional
fraction and exponent, underscores allowed between digits (`"190.5"`,
`".5"`, `"5."`, `"1e+2"`, `"1_0.5_5"`; not `""`, `"1e"`, `"+ 5"`).  A
coerced decimal string denotes its exact decimal value. -/

/-- ASCII whitespace, as trimmed from numeric strings in lax mode. -/
def isSpaceChar (c : Char) : Bool :=
  c == ' ' || c == '\t' || c == '\n' || c == '\r'

/-- Trimming of whitespace at both ends of a character list. -/
def trimChars (cs : List Char) : List Char :=
  ((cs.dropWhile isSpaceChar).reverse.dropWhile isSpaceChar).reverse

/-- Continuation of a digit group after a first digit: further digits, with
single underscores allowed strictly between digits.  Returns the digits with
underscores removed. -/
def digitsTail : List Char → Option (List Char)
  | [] => some []
  | '_' :: c :: cs =>
    if c.isDigit then (digitsTail cs).map (fun ds => c :: ds) else none
  | ['_'] => none
  | c :: cs =>
    if c.isDigit then (digitsTail cs).map (fun ds => c :: ds) else none

/-- A nonempty digit group with Python-style underscores: starts and ends
with a digit, underscores only between digits. -/
def digitGroup : List Char → Option (List Char)
  | [] => none
  | c :: cs =>
    if c.isDigit then (digitsTail cs).map (fun ds => c :: ds) else none

/-- Numeric value of a plain digit list. -/
def digitsVal (ds : List Char) : Nat :=
  ds.foldl (fun n c => 10 * n + (c.toNat - 48)) 0

/-- Splitting of an optional leading sign. -/
def signSplit : List Char → Int × List Char
  | '-' :: cs => (-1, cs)
  | '+' :: cs => (1, cs)
  | cs => (1, cs)

/-- Lax coercion of a string to an `int` field value: trimmed, optionally
signed digit group, optionally followed by a fraction made only of zeros. -/
def intStrToInt (s : String) : Option Int :=
  let cs := trimChars s.data
  let (sign, cs2) := signSplit cs
  let ip := cs2.takeWhile (fun c => c != '.')
  let rest := cs2.dropWhile (fun c => c != '.')
  match digitGroup ip with
  | none => none
  | some ds =>
    match rest with
    | [] => some (sign * (digitsVal ds : Int))
    | _ :: frac =>
      if !frac.isEmpty && frac.all (fun c => c == '0') then
        some (sign * (digitsVal ds : Int))
      else none

/-- Lax coercion of a string to a `float` field value: trimmed, optionally
signed `inf`/`infinity`/`nan` in any case, or a decimal with optional
fraction and exponent. -/
def floatStrToNum (s : String) : Option JsonNum :=
  let cs := trimChars s.data
  let (sign, cs2) := signSplit cs
  let low := cs2.map Char.toLower
  if low == ['i', 'n', 'f'] || low == ['i', 'n', 'f', 'i', 'n', 'i', 't', 'y'] then
    some (if sign == 1 then JsonNum.posInf else JsonNum.negInf)
  else if low == ['n', 'a', 'n'] then
    some JsonNum.nan
  else
    let mant := cs2.takeWhile (fun c => c != 'e' && c != 'E')
    let erest := cs2.dropWhile (fun c => c != 'e' && c != 'E')
    let expOpt : Option Int :=
      match erest with
      | [] => some 0
      | _ :: ecs =>
        let (esign, ecs2) := signSplit ecs
        (digitGroup ecs2).map (fun ds => esign * (digitsVal ds : Int))
    match expOpt with
    | none => none
    | some e =>
      let ip := mant.takeWhile (fun c => c != '.')
      let rest := mant.dropWhile (fun c => c != '.')
      let ipds : Option (List Char) :=
        if ip.isEmpty then some [] else digitGroup ip
      let fpds : Option (List Char) :=
        match rest with
        | [] => some []
        | _ :: frac => if frac.isEmpty then some [] else digitGroup frac
      match ipds, fpds with
      | some a, some b =>
        if a.isEmpty && b.isEmpty then none
        else
          some (JsonNum.finite (((sign * (digitsVal (a ++ b) : Int) : ℚ)) *
            (10 : ℚ) ^ (e - (b.length : Int))))
      | _, _ => none

/-! ## Pydantic validation and serialization

`chartPayloadFromJson` embeds pydantic v2 validation (default, lax mode) of
the `ChartPayload` model on a parsed JSON value: `basketId` must be a
string (no coercion: numbers, bools and null are rejected for `str`
fields), `data` a list of points, a point must have an `int` `timestamp`
and a string-keyed `prices` object of `float` values; numeric strings and
bools coerce to the numeric fields, NaN and Infinity are accepted for
`float` (`allow_inf_nan` default); fields beyond the declared ones are
ignored (`extra` default).  `ChartPayload.toJson` embeds
`payload.model_dump_json()`, which emits exactly the declared fields in
declaration order, writing non-finite floats as `null`
(`ser_json_inf_nan` default). -/

/-- Validation of a `str` field value. -/
def decodeStr : Json → Option String
  | .str s => some s
  | _ => none

/-- Validation of a list-typed field as its element list. -/
def decodeList : Json → Option (List Json)
  | .arr xs => some xs
  | _ => none

/-- Lax validation of a `float` field value: any JSON number including the
non-finite constants, a coercible numeric string, or a bool. -/
def decodeFloat : Json → Option JsonNum
  | .num n => some n
  | .str s => floatStrToNum s
  | .bool b => some (.finite (if b then 1 else 0))
  | _ => none

/-- Lax validation of an `int` field value: a JSON number denoting an
integer, a coercible integer string, or a bool. -/
def decodeInt : Json → Option Int
  | .num (.finite q) => if q.den = 1 then some q.num else none
  | .num _ => none
  | .str s => intStrToInt s
  | .bool b => some (if b then 1 else 0)
  | _ => none

/-- Validation of each entry of a string-keyed dict as a `float`. -/
def decodePriceEntries : List (String × Json) → Option (List (String × JsonNum))
  | [] => some []
  | kv :: rest => do
      let q ← decodeFloat kv.2
      let qs ← decodePriceEntries rest
      pure ((kv.1, q) :: qs)

/-- Validation of a `Dict[str, float]` field value. -/
def decodePrices : Json → Option (List (String × JsonNum))
  | .obj fields => decodePriceEntries (jsonObjToDict fields)
  | _ => none

/-- Validation of one `ChartPoint` from a JSON value. -/
def chartPointFromJson : Json → Option ChartPoint
  | .obj fields => do
      let d := jsonObjToDict fields
      let ts ← dictFind d "timestamp"
      let timestamp ← decodeInt ts
      let pr ← dictFind d "prices"
      let prices ← decodePrices pr
      pure { timestamp := timestamp, prices := prices }
  | _ => none

/-- Validation of each element of the `data` list as a `ChartPoint`. -/
def decodePoints : List Json → Option (List ChartPoint)
  | [] => some []
  | j :: rest => do
      let pt ← chartPointFromJson j
      let pts ← decodePoints rest
      pure (pt :: pts)

/-- Validation of a `ChartPayload` from a JSON value. -/
def chartPayloadFromJson : Json → Option ChartPayload
  | .obj fields => do
      let d := jsonObjToDict fields
      let bj ← dictFind d "basketId"
      let basketId ← decodeStr bj
      let dj ← dictFind d "data"
      let xs ← decodeList dj
      let data ← decodePoints xs
      pure { basketId := basketId, data := data }
  | _ => none

/-- Serialization of one point by `model_dump_json`: non-finite prices are
written as `null`. -/
def ChartPoint.toJson (pt : ChartPoint) : Json :=
  .obj [("timestamp", .num (.finite (pt.timestamp : ℚ))),
        ("prices", .obj (pt.prices.map (fun kv => (kv.1, kv.2.serialize))))]

/-- Serialization of the payload by `payload.model_dump_json()`. -/
def ChartPayload.toJson (p : ChartPayload) : Json :=
  .obj [("basketId", .str p.basketId),
        ("data", .arr (p.data.map ChartPoint.toJson))]

/-- A `ChartPoint` whose prices a Python `Dict[str, float]` can hold: its
symbol keys are pairwise distinct. -/
def ChartPoint.keysNodup (pt : ChartPoint) : Prop :=
  (pt.prices.map Prod.fst).Nodup

instance (pt : ChartPoint) : Decidable pt.keysNodup := by
  unfold ChartPoint.keysNodup; infer_instance

/-- A `ChartPoint` whose prices are all finite.  Non-finite prices are
legal in a validated model but are serialized to `null` and so do not
survive the JSON round trip. -/
def ChartPoint.finitePrices (pt : ChartPoint) : Prop :=
  ∀ kv ∈ pt.prices, kv.2.isFinite = true

instance (pt : ChartPoint) : Decidable pt.finitePrices := by
  unfold ChartPoint.finitePrices; infer_instance

/-- A valid `ChartPoint`: distinct symbol keys and finite prices. -/
def ChartPoint.wf (pt : ChartPoint) : Prop :=
  pt.keysNodup ∧ pt.finitePrices

instance (pt : ChartPoint) : Decidable pt.wf := by
  unfold ChartPoint.wf; infer_instance

/-- A `ChartPayload` whose points all have finite prices. -/
def ChartPayload.finitePrices (p : ChartPayload) : Prop :=
  ∀ pt ∈ p.data, pt.finitePrices

instance (p : ChartPayload) : Decidable p.finitePrices := by
  unfold ChartPayload.finitePrices; infer_instance

/-- A valid `ChartPayload`: every point is well formed. -/
def ChartPayload.wf (p : ChartPayload) : Prop :=
  ∀ pt ∈ p.data, pt.wf

instance (p : ChartPayload) : Decidable p.wf := by
  unfold ChartPayload.wf; infer_instance

/-! ## Authorization gate and HTTP handlers -/

/-- An HTTP response: a 200 with a JSON body, or an error status with a
detail string. -/
inductive Resp where
  | ok (body : Json)
  | err (status : Nat) (detail : String)

/-- HTTP status of a response. -/
def Resp.statusOf : Resp → Nat
  | .ok _ => 200
  | .err s _ => s

/-- Model of `require_api_key`: `API_KEY` is the configured secret
(`None` when the environment variable is unset); the check passes when no
secret is configured (`not API_KEY` is true for `None` and for the empty
string), otherwise exactly when the presented header equals the secret.
Returns `true` when the request is accepted, `false` when the function
raises HTTP 401. -/
def require_api_key (API_KEY : Option String) (x_api_key : Option String) :
    Bool :=
  match API_KEY with
  | none => true
  | some k => if k = "" then true else x_api_key == some k

/-- Model of the `GET /charts/{basket_id}` route, including the
`response_model=ChartPayload` serialization step FastAPI performs on the
returned value (a value that fails response validation is answered as
HTTP 500). -/
def get_chart (API_KEY : Option String) (t : Table) (basket_id : String)
    (year : Int) (x_api_key : Option String) : Resp :=
  if require_api_key API_KEY x_api_key then
    match selectRow t basket_id year with
    | none => .err 404 "Not found"
    | some row =>
      match parseStored row.payload with
      | none => .err 500 "Corrupted payload"
      | some j =>
        match chartPayloadFromJson j with
        | none => .err 500 "Internal Server Error"
        | some p => .ok p.toJson
  else .err 401 "Unauthorized"

/-- Model of the `upsert_chart` endpoint function body: FastAPI has already
bound `payload` to a validated `ChartPayload`.  `now_ms` is the value of
`int(time.time() * 1000)` at this request.  Returns the response and the
table after the request. -/
def upsert_chart (API_KEY : Option String) (t : Table) (basket_id : String)
    (year : Int) (payload : ChartPayload) (x_api_key : Option String)
    (now_ms : Int) : Resp × Table :=
  if require_api_key API_KEY x_api_key then
    if payload.basketId ≠ basket_id then
      (.err 400 "basketId mismatch", t)
    else
      (.ok (.obj [("ok", .bool true), ("updatedAtMs", .num (.finite (now_ms : ℚ)))]),
       upsertRow basket_id year (.json payload.toJson) now_ms t)
  else (.err 401 "Unauthorized", t)

/-- Model of the full `PUT /charts/{basket_id}` route: FastAPI first binds
the request body (`none` models a body that is not valid JSON) and validates
it against `ChartPayload`, answering 422 without entering the endpoint
function on failure; then the endpoint function runs. -/
def put_route (API_KEY : Option String) (t : Table) (basket_id : String)
    (year : Int) (body : Option Json) (x_api_key : Option String)
    (now_ms : Int) : Resp × Table :=
  match body with
  | none => (.err 422 "Unprocessable Entity", t)
  | some j =>
    match chartPayloadFromJson j with
    | none => (.err 422 "Unprocessable Entity", t)
    | some payload =>
        upsert_chart API_KEY t basket_id year payload x_api_key now_ms

/-- One PUT request as seen by the service. -/
structure PutReq where
  basket_id : String
  year : Int
  body : Option Json
  x_api_key : Option String
  now_ms : Int

/-- The table produced by a fresh start (`init_db`) followed by a sequence
of PUT requests (GET requests never change the table). -/
def runPuts (API_KEY : Option String) (reqs : List PutReq) : Table :=
  reqs.foldl
    (fun t r => (put_route API_KEY t r.basket_id r.year r.body r.x_api_key
      r.now_ms).2)
    initTable

/-- The composite keys of the table rows, in row order. -/
def keysOf (t : Table) : List (String × Int) :=
  t.map (fun r => (r.basket_id, r.year))

/-- The table holds at most one row per (basket_id, year) key. -/
def uniqueKeys (t : Table) : Prop :=
  (keysOf t).Nodup

/-! ## Store lemmas -/

/-- Characterization of the row-key test. -/
theorem Row.hasKey_iff (r : Row) (b : String) (y : Int) :
    r.hasKey b y = true ↔ r.basket_id = b ∧ r.year = y := by
  simp [Row.hasKey]

/-- Reading back the key just upserted yields exactly the upserted row. -/
theorem selectRow_upsertRow_self (t : Table) (b : String) (y : Int)
    (p : PayloadText) (ms : Int) :
    selectRow (upsertRow b y p ms t) b y = some ⟨b, y, p, ms⟩ := by
  induction t with
  | nil => simp [selectRow, upsertRow, List.find?, Row.hasKey]
  | cons r rs ih =>
    by_cases hr : r.hasKey b y = true
    · obtain ⟨hb, hy⟩ := (Row.hasKey_iff r b y).1 hr
      simp [selectRow, upsertRow, hr, List.find?_cons, Row.hasKey, hb, hy]
    · simp only [upsertRow, hr, if_false, Bool.false_eq_true, selectRow,
        List.find?_cons] at *
      simp [hr, ih]

/-- Upserting one key leaves the row found at any other key unchanged. -/
theorem selectRow_upsertRow_ne (t : Table) {b b2 : String} {y y2 : Int}
    (p : PayloadText) (ms : Int) (h : ¬(b = b2 ∧ y = y2)) :
    selectRow (upsertRow b y p ms t) b2 y2 = selectRow t b2 y2 := by
  induction t with
  | nil =>
    have hn : (⟨b, y, p, ms⟩ : Row).hasKey b2 y2 = false := by
      rw [Bool.eq_false_iff]
      intro hc
      exact h ((Row.hasKey_iff _ _ _).1 hc)
    simp [upsertRow, selectRow, List.find?, hn]
  | cons r rs ih =>
    by_cases hr : r.hasKey b y = true
    · have hr2 : r.hasKey b2 y2 = false := by
        rw [Bool.eq_false_iff]
        intro hc
        obtain ⟨hb, hy⟩ := (Row.hasKey_iff _ _ _).1 hr
        obtain ⟨hb2, hy2⟩ := (Row.hasKey_iff _ _ _).1 hc
        exact h ⟨hb.symm.trans hb2, hy.symm.trans hy2⟩
      have hu2 : ({ r with payload := p, updated_at_ms := ms } : Row).hasKey
          b2 y2 = false := hr2
      simp [upsertRow, hr, selectRow, List.find?_cons, hu2, hr2]
    · by_cases hr2 : r.hasKey b2 y2 = true
      · simp [upsertRow, hr, selectRow, List.find?_cons, hr2]
      · simp only [Bool.not_eq_true] at hr hr2
        simp only [upsertRow, hr, Bool.false_eq_true, if_false, selectRow,
          List.find?_cons, hr2] at *
        exact ih

/-- Membership of a key among the table keys, via the row predicate. -/
theorem mem_keysOf_iff (t : Table) (b : String) (y : Int) :
    (b, y) ∈ keysOf t ↔ ∃ r ∈ t, r.hasKey b y = true := by
  simp only [keysOf, List.mem_map, Row.hasKey_iff]
  constructor
  · rintro ⟨r, hr, hk⟩
    exact ⟨r, hr, congrArg Prod.fst hk, congrArg Prod.snd hk⟩
  · rintro ⟨r, hr, hb, hy⟩
    exact ⟨r, hr, by simp [hb, hy]⟩

/-- An upsert on a key already present replaces in place: the key list (hence
also the row count) is unchanged. -/
theorem keysOf_upsertRow_mem (t : Table) {b : String} {y : Int}
    (p : PayloadText) (ms : Int) (h : (b, y) ∈ keysOf t) :
    keysOf (upsertRow b y p ms t) = keysOf t := by
  induction t with
  | nil => simp [keysOf] at h
  | cons r rs ih =>
    by_cases hr : r.hasKey b y = true
    · simp [upsertRow, hr, keysOf]
    · have hm : (b, y) ∈ keysOf rs := by
        rcases (mem_keysOf_iff (r :: rs) b y).1 h with ⟨r2, hr2, hk2⟩
        rcases List.mem_cons.1 hr2 with rfl | hr2
        · exact absurd hk2 (by simp [hr])
        · exact (mem_keysOf_iff rs b y).2 ⟨r2, hr2, hk2⟩
      simp [upsertRow, hr, keysOf, ih hm]
      simpa [keysOf] using ih hm

/-- An upsert on an absent key appends exactly one row with that key. -/
theorem keysOf_upsertRow_not_mem (t : Table) {b : String} {y : Int}
    (p : PayloadText) (ms : Int) (h : (b, y) ∉ keysOf t) :
    keysOf (upsertRow b y p ms t) = keysOf t ++ [(b, y)] := by
  induction t with
  | nil => simp [upsertRow, keysOf]
  | cons r rs ih =>
    have hr : r.hasKey b y = false := by
      rw [Bool.eq_false_iff]
      intro hc
      exact h ((mem_keysOf_iff (r :: rs) b y).2 ⟨r, List.mem_cons_self r rs, hc⟩)
    have hm : (b, y) ∉ keysOf rs := by
      intro hc
      rcases (mem_keysOf_iff rs b y).1 hc with ⟨r2, hr2, hk2⟩
      exact h ((mem_keysOf_iff (r :: rs) b y).2 ⟨r2, List.mem_cons_of_mem r hr2, hk2⟩)
    simp [upsertRow, hr, keysOf] at *
    simpa [keysOf] using ih hm

/-- An upsert preserves the at-most-one-row-per-key invariant. -/
theorem uniqueKeys_upsertRow (t : Table) (b : String) (y : Int)
    (p : PayloadText) (ms : Int) (h : uniqueKeys t) :
    uniqueKeys (upsertRow b y p ms t) := by
  by_cases hm : (b, y) ∈ keysOf t
  · rw [uniqueKeys, keysOf_upsertRow_mem t p ms hm]
    exact h
  · rw [uniqueKeys, keysOf_upsertRow_not_mem t p ms hm]
    simpa [List.nodup_append] using ⟨h, hm⟩

/-- The table after a PUT request is either unchanged or the upsert of the
validated payload at the request key. -/
theorem put_route_table_cases (API_KEY : Option String) (t : Table)
    (basket_id : String) (year : Int) (body : Option Json)
    (x_api_key : Option String) (now_ms : Int) :
    (put_route API_KEY t basket_id year body x_api_key now_ms).2 = t ∨
    ∃ payload : ChartPayload,
      (put_route API_KEY t basket_id year body x_api_key now_ms).2 =
        upsertRow basket_id year (.json payload.toJson) now_ms t := by
  cases body with
  | none => exact Or.inl rfl
  | some j =>
    cases hd : chartPayloadFromJson j with
    | none => left; simp [put_route, hd]
    | some payload =>
      by_cases ha : require_api_key API_KEY x_api_key = true
      · by_cases hb : payload.basketId = basket_id
        · right
          exact ⟨payload, by simp [put_route, upsert_chart, hd, ha, hb]⟩
        · left
          simp [put_route, upsert_chart, hd, ha, hb]
      · left
        simp only [Bool.not_eq_true] at ha
        simp [put_route, upsert_chart, hd, ha]

/-- A PUT request preserves the at-most-one-row-per-key invariant. -/
theorem uniqueKeys_put_route (API_KEY : Option String) (t : Table)
    (basket_id : String) (year : Int) (body : Option Json)
    (x_api_key : Option String) (now_ms : Int) (h : uniqueKeys t) :
    uniqueKeys (put_route API_KEY t basket_id year body x_api_key now_ms).2 := by
  rcases put_route_table_cases API_KEY t basket_id year body x_api_key now_ms
    with hc | ⟨payload, hc⟩
  · rw [hc]; exact h
  · rw [hc]; exact uniqueKeys_upsertRow t basket_id year _ now_ms h

/-- A PUT request never changes the row found at a different key. -/
theorem selectRow_put_route_ne (API_KEY : Option String) (t : Table)
    {basket_id : String} {year : Int} (body : Option Json)
    (x_api_key : Option String) (now_ms : Int) {b2 : String} {y2 : Int}
    (h : ¬(basket_id = b2 ∧ year = y2)) :
    selectRow (put_route API_KEY t basket_id year body x_api_key now_ms).2 b2 y2 =
      selectRow t b2 y2 := by
  rcases put_route_table_cases API_KEY t basket_id year body x_api_key now_ms
    with hc | ⟨payload, hc⟩
  · rw [hc]
  · rw [hc]; exact selectRow_upsertRow_ne t _ now_ms h

/-- Folding PUT requests that never target (B, Y) leaves (B, Y) unfound. -/
theorem selectRow_foldPuts_none (API_KEY : Option String) (reqs : List PutReq)
    (t : Table) (B : String) (Y : Int)
    (h : ∀ r ∈ reqs, ¬(r.basket_id = B ∧ r.year = Y))
    (h0 : selectRow t B Y = none) :
    selectRow (reqs.foldl
      (fun t r => (put_route API_KEY t r.basket_id r.year r.body r.x_api_key
        r.now_ms).2) t) B Y = none := by
  induction reqs generalizing t with
  | nil => exact h0
  | cons r rs ih =>
    simp only [List.foldl_cons]
    refine ih _ (fun q hq => h q (List.mem_cons_of_mem r hq)) ?_
    rw [selectRow_put_route_ne API_KEY t r.body r.x_api_key r.now_ms
      (h r (List.mem_cons_self r rs))]
    exact h0

/-- Folding PUT requests preserves key uniqueness. -/
theorem uniqueKeys_foldPuts (API_KEY : Option String) (reqs : List PutReq)
    (t : Table) (h : uniqueKeys t) :
    uniqueKeys (reqs.foldl
      (fun t r => (put_route API_KEY t r.basket_id r.year r.body r.x_api_key
        r.now_ms).2) t) := by
  induction reqs generalizing t with
  | nil => exact h
  | cons r rs ih =>
    exact ih _ (uniqueKeys_put_route API_KEY t r.basket_id r.year r.body
      r.x_api_key r.now_ms h)

/-! ## Round-trip of pydantic serialization and validation -/

/-- Folding dict insertion over fields whose keys are fresh for the
accumulator and pairwise distinct appends them all in order. -/
theorem foldl_dictInsert_fresh (fields : List (String × Json)) :
    ∀ acc : List (String × Json),
      (∀ kv ∈ acc, ∀ k ∈ fields.map Prod.fst, kv.1 ≠ k) →
      (fields.map Prod.fst).Nodup →
      fields.foldl (fun a kv => dictInsert a kv.1 kv.2) acc = acc ++ fields := by
  induction fields with
  | nil => intro acc _ _; simp
  | cons kv rest ih =>
    intro acc hfresh hnd
    simp only [List.foldl_cons]
    have hany : acc.any (fun kv2 => kv2.1 == kv.1) = false := by
      rw [List.any_eq_false]
      intro kv2 hkv2
      simpa using hfresh kv2 hkv2 kv.1 (by simp)
    have hstep : dictInsert acc kv.1 kv.2 = acc ++ [kv] := by
      simp [dictInsert, hany]
    rw [hstep, ih (acc ++ [kv]) ?fresh ?nd]
    · simp
    case fresh =>
      intro kv2 hkv2 k hk
      rcases List.mem_append.1 hkv2 with hin | hin
      · exact hfresh kv2 hin k (by simp [hk])
      · have : kv2 = kv := by simpa using hin
        subst this
        simp only [List.map_cons, List.nodup_cons] at hnd
        intro hc
        exact hnd.1 (hc ▸ hk)
    case nd =>
      simp only [List.map_cons, List.nodup_cons] at hnd
      exact hnd.2

/-- A JSON object with pairwise-distinct keys reads back as the same
association list under Python dict construction. -/
theorem jsonObjToDict_nodup (fields : List (String × Json))
    (h : (fields.map Prod.fst).Nodup) : jsonObjToDict fields = fields := by
  simpa using foldl_dictInsert_fresh fields [] (by simp) h

/-- Serialized finite prices validate back to themselves, entry by
entry (a non-finite price would be serialized as `null`, which does not
validate as a `float`). -/
theorem decodePriceEntries_map (l : List (String × JsonNum))
    (hfin : ∀ kv ∈ l, kv.2.isFinite = true) :
    decodePriceEntries (l.map (fun kv => (kv.1, kv.2.serialize))) = some l := by
  induction l with
  | nil => rfl
  | cons kv rest ih =>
    have hser : kv.2.serialize = Json.num kv.2 := by
      have := hfin kv (by simp)
      cases hv : kv.2 <;> simp_all [JsonNum.isFinite, JsonNum.serialize]
    simp [decodePriceEntries, hser, decodeFloat,
      ih (fun q hq => hfin q (by simp [hq]))]

/-- A serialized prices dict with distinct keys and finite values validates
back to itself. -/
theorem decodePrices_toJson (prices : List (String × JsonNum))
    (h : (prices.map Prod.fst).Nodup)
    (hfin : ∀ kv ∈ prices, kv.2.isFinite = true) :
    decodePrices (.obj (prices.map (fun kv => (kv.1, kv.2.serialize)))) =
      some prices := by
  have hkeys : ((prices.map (fun kv => (kv.1, kv.2.serialize))).map Prod.fst) =
      prices.map Prod.fst := by
    simp [List.map_map]
  have hdict := jsonObjToDict_nodup
    (prices.map (fun kv => (kv.1, kv.2.serialize))) (by rw [hkeys]; exact h)
  simp only [decodePrices, hdict]
  exact decodePriceEntries_map prices hfin

/-- An integer cast into the JSON number field validates back as itself. -/
theorem decodeInt_intCast (n : Int) :
    decodeInt (.num (.finite (n : ℚ))) = some n := by
  simp [decodeInt, Rat.den_intCast, Rat.num_intCast]

/-- A well-formed point round-trips through serialization and validation. -/
theorem chartPointFromJson_toJson (pt : ChartPoint) (h : pt.wf) :
    chartPointFromJson pt.toJson = some pt := by
  have hshape : chartPointFromJson pt.toJson =
      (decodeInt (.num (.finite (pt.timestamp : ℚ)))).bind (fun timestamp =>
        (decodePrices (.obj (pt.prices.map (fun kv =>
          (kv.1, kv.2.serialize))))).bind
          (fun prices => some { timestamp := timestamp, prices := prices })) :=
    rfl
  rw [hshape, decodeInt_intCast, decodePrices_toJson pt.prices h.1 h.2]
  rfl

/-- Serialized points validate back to themselves, point by point. -/
theorem decodePoints_map (l : List ChartPoint) (h : ∀ pt ∈ l, pt.wf) :
    decodePoints (l.map ChartPoint.toJson) = some l := by
  induction l with
  | nil => rfl
  | cons pt rest ih =>
    simp [decodePoints, chartPointFromJson_toJson pt (h pt (by simp)),
      ih (fun q hq => h q (by simp [hq]))]

/-- A well-formed payload round-trips: validating its own serialization
returns it unchanged. -/
theorem chartPayloadFromJson_toJson (p : ChartPayload) (h : p.wf) :
    chartPayloadFromJson p.toJson = some p := by
  have hshape : chartPayloadFromJson p.toJson =
      (decodePoints (p.data.map ChartPoint.toJson)).bind
        (fun data => some { basketId := p.basketId, data := data }) := rfl
  rw [hshape, decodePoints_map p.data h]
  rfl

/-- Lax coercion behaviour of the embedded validators on sample inputs:
integer strings with whitespace, signs, underscores and all-zero fractions
coerce to `int` while exponents and proper fractions do not; bools coerce
to numbers; float strings accept fractions, exponents, underscores and the
inf/nan words in any case; the empty string and `null` never validate as
numbers; non-finite numbers are no `int`. -/
theorem decode_lax_samples :
    decodeInt (Json.str "5") = some 5 ∧
    decodeInt (Json.str " 5 ") = some 5 ∧
    decodeInt (Json.str "5.00") = some 5 ∧
    decodeInt (Json.str "+7") = some 7 ∧
    decodeInt (Json.str "1_0") = some 10 ∧
    decodeInt (Json.str "-0") = some 0 ∧
    decodeInt (Json.str "1e2") = none ∧
    decodeInt (Json.str "5.5") = none ∧
    decodeInt (Json.str "5.") = none ∧
    decodeInt (Json.str "1__0") = none ∧
    decodeInt (Json.bool true) = some 1 ∧
    decodeInt (Json.num JsonNum.posInf) = none ∧
    decodeInt Json.null = none ∧
    (decodeFloat (Json.str "190.5")).isSome = true ∧
    (decodeFloat (Json.str "1_0.5")).isSome = true ∧
    (decodeFloat (Json.str "1e+2")).isSome = true ∧
    (decodeFloat (Json.str ".5")).isSome = true ∧
    decodeFloat (Json.str "-inf") = some JsonNum.negInf ∧
    decodeFloat (Json.str "NaN") = some JsonNum.nan ∧
    decodeFloat (Json.str "Infinity") = some JsonNum.posInf ∧
    decodeFloat (Json.str "") = none ∧
    decodeFloat (Json.str "1e") = none ∧
    decodeFloat (Json.bool true) = some (JsonNum.finite 1) ∧
    decodeFloat Json.null = none ∧
    decodeFloat (Json.num JsonNum.nan) = some JsonNum.nan :=
  ⟨rfl, rfl, rfl, rfl, rfl, rfl, rfl, rfl, rfl, rfl, rfl, rfl, rfl, rfl,
   rfl, rfl, rfl, rfl, rfl, rfl, rfl, rfl, rfl, rfl, rfl⟩

/-! ## Decoded payloads have pairwise-distinct dict keys -/

/-- Dict insertion preserves pairwise-distinct keys. -/
theorem dictInsert_keys_nodup (l : List (String × Json)) (k : String)
    (v : Json) (h : (l.map Prod.fst).Nodup) :
    ((dictInsert l k v).map Prod.fst).Nodup := by
  by_cases hmem : l.any (fun kv => kv.1 == k) = true
  · have hkeys : (dictInsert l k v).map Prod.fst = l.map Prod.fst := by
      simp only [dictInsert, hmem, if_true, List.map_map]
      apply List.map_congr_left
      intro kv _
      by_cases hk : (kv.1 == k) = true
      · simp [Function.comp, hk, (eq_of_beq hk).symm]
      · simp [Function.comp, hk]
    rw [hkeys]
    exact h
  · have hkeys : (dictInsert l k v).map Prod.fst = l.map Prod.fst ++ [k] := by
      simp [dictInsert, hmem]
    rw [hkeys]
    rw [Bool.not_eq_true, List.any_eq_false] at hmem
    have hnot : k ∉ l.map Prod.fst := by
      intro hc
      rcases List.mem_map.1 hc with ⟨kv, hkv, hfst⟩
      exact hmem kv hkv (by simp [hfst])
    exact List.Nodup.append h (List.nodup_singleton k)
      (fun a ha hb => hnot ((List.mem_singleton.1 hb) ▸ ha))

/-- Python dict construction always yields pairwise-distinct keys. -/
theorem jsonObjToDict_keys_nodup (fields : List (String × Json)) :
    ((jsonObjToDict fields).map Prod.fst).Nodup := by
  suffices haux : ∀ fs acc : List (String × Json), (acc.map Prod.fst).Nodup →
      ((fs.foldl (fun a kv => dictInsert a kv.1 kv.2) acc).map Prod.fst).Nodup by
    exact haux fields [] (by simp)
  intro fs
  induction fs with
  | nil => intro acc hacc; exact hacc
  | cons kv rest ih =>
    intro acc hacc
    simp only [List.foldl_cons]
    exact ih (dictInsert acc kv.1 kv.2) (dictInsert_keys_nodup acc kv.1 kv.2 hacc)

/-- Price validation preserves the key list. -/
theorem decodePriceEntries_keys (l : List (String × Json)) :
    ∀ qs : List (String × JsonNum), decodePriceEntries l = some qs →
      qs.map Prod.fst = l.map Prod.fst := by
  induction l with
  | nil =>
    intro qs h
    cases Option.some.inj h
    rfl
  | cons kv rest ih =>
    intro qs h
    have h2 : (decodeFloat kv.2).bind (fun q =>
        (decodePriceEntries rest).bind (fun qs2 =>
          some ((kv.1, q) :: qs2))) = some qs := h
    rcases Option.bind_eq_some.1 h2 with ⟨q, _, h3⟩
    rcases Option.bind_eq_some.1 h3 with ⟨qs2, hqs2, h4⟩
    cases Option.some.inj h4
    simp [ih qs2 hqs2]

/-- Validated prices always carry pairwise-distinct keys. -/
theorem decodePrices_keysNodup (j : Json) (prices : List (String × JsonNum))
    (h : decodePrices j = some prices) : (prices.map Prod.fst).Nodup := by
  cases j with
  | obj fields =>
    simp only [decodePrices] at h
    rw [decodePriceEntries_keys _ _ h]
    exact jsonObjToDict_keys_nodup fields
  | str s => simp [decodePrices] at h
  | num q => simp [decodePrices] at h
  | bool b => simp [decodePrices] at h
  | null => simp [decodePrices] at h
  | arr xs => simp [decodePrices] at h

/-- A validated point has pairwise-distinct price keys (it may hold
non-finite prices). -/
theorem chartPointFromJson_keysNodup (j : Json) (pt : ChartPoint)
    (h : chartPointFromJson j = some pt) : pt.keysNodup := by
  cases j with
  | obj fields =>
    have h2 : (dictFind (jsonObjToDict fields) "timestamp").bind (fun ts =>
        (decodeInt ts).bind (fun timestamp =>
          (dictFind (jsonObjToDict fields) "prices").bind (fun pr =>
            (decodePrices pr).bind (fun prices =>
              some { timestamp := timestamp, prices := prices })))) =
        some pt := h
    rcases Option.bind_eq_some.1 h2 with ⟨ts, _, h3⟩
    rcases Option.bind_eq_some.1 h3 with ⟨timestamp, _, h4⟩
    rcases Option.bind_eq_some.1 h4 with ⟨pr, _, h5⟩
    rcases Option.bind_eq_some.1 h5 with ⟨prices, hp, h6⟩
    cases Option.some.inj h6
    exact decodePrices_keysNodup pr prices hp
  | str s => simp [chartPointFromJson] at h
  | num q => simp [chartPointFromJson] at h
  | bool b => simp [chartPointFromJson] at h
  | null => simp [chartPointFromJson] at h
  | arr xs => simp [chartPointFromJson] at h

/-- Every point of a validated data list has distinct price keys. -/
theorem decodePoints_keysNodup (xs : List Json) :
    ∀ pts : List ChartPoint, decodePoints xs = some pts →
      ∀ pt ∈ pts, pt.keysNodup := by
  induction xs with
  | nil =>
    intro pts h
    cases Option.some.inj h
    simp
  | cons j rest ih =>
    intro pts h
    have h2 : (chartPointFromJson j).bind (fun pt =>
        (decodePoints rest).bind (fun pts2 => some (pt :: pts2))) = some pts := h
    rcases Option.bind_eq_some.1 h2 with ⟨pt, hpt, h3⟩
    rcases Option.bind_eq_some.1 h3 with ⟨pts2, hpts2, h4⟩
    cases Option.some.inj h4
    intro q hq
    rcases List.mem_cons.1 hq with rfl | hq2
    · exact chartPointFromJson_keysNodup j q hpt
    · exact ih pts2 hpts2 q hq2

/-- Every point of a validated payload has distinct price keys:
pydantic-validated dicts cannot hold duplicate keys. -/
theorem chartPayloadFromJson_keysNodup (j : Json) (P : ChartPayload)
    (h : chartPayloadFromJson j = some P) : ∀ pt ∈ P.data, pt.keysNodup := by
  cases j with
  | obj fields =>
    have h2 : (dictFind (jsonObjToDict fields) "basketId").bind (fun bj =>
        (decodeStr bj).bind (fun basketId =>
          (dictFind (jsonObjToDict fields) "data").bind (fun dj =>
            (decodeList dj).bind (fun xs =>
              (decodePoints xs).bind (fun data =>
                some { basketId := basketId, data := data }))))) = some P := h
    rcases Option.bind_eq_some.1 h2 with ⟨bj, _, h3⟩
    rcases Option.bind_eq_some.1 h3 with ⟨basketId, _, h4⟩
    rcases Option.bind_eq_some.1 h4 with ⟨dj, _, h5⟩
    rcases Option.bind_eq_some.1 h5 with ⟨xs, _, h6⟩
    rcases Option.bind_eq_some.1 h6 with ⟨data, hdata, h7⟩
    cases Option.some.inj h7
    exact decodePoints_keysNodup xs data hdata
  | str s => simp [chartPayloadFromJson] at h
  | num q => simp [chartPayloadFromJson] at h
  | bool b => simp [chartPayloadFromJson] at h
  | null => simp [chartPayloadFromJson] at h
  | arr xs => simp [chartPayloadFromJson] at h

/-! ## Remaining helpers for the claim statements -/

/-- FastAPI body binding: the validated payload of an optional JSON body. -/
def bodyDecode (body : Option Json) : Option ChartPayload :=
  body.bind chartPayloadFromJson

/-- The top-level field names of a JSON object. -/
def objKeys : Json → List String
  | .obj fields => fields.map Prod.fst
  | _ => []

/-- With a nonempty secret configured, a missing or different credential
fails the gate. -/
theorem require_api_key_false (k : String) (cred : Option String)
    (hk : k ≠ "") (hcred : cred ≠ some k) :
    require_api_key (some k) cred = false := by
  simp only [require_api_key, hk, if_false]
  simpa using hcred

/-- A PUT whose body fails FastAPI binding is answered 422 with the table
unchanged, whatever the credential. -/
theorem put_route_invalid_body (API_KEY : Option String) (t : Table)
    (B : String) (Y : Int) (body : Option Json) (cred : Option String)
    (ms : Int) (h : bodyDecode body = none) :
    put_route API_KEY t B Y body cred ms =
      (.err 422 "Unprocessable Entity", t) := by
  cases body with
  | none => rfl
  | some j =>
    have hj : chartPayloadFromJson j = none := by simpa [bodyDecode] using h
    simp [put_route, hj]

/-- An accepted, matching PUT with a validating body upserts the serialized
validated payload and answers ok with the write time. -/
theorem put_route_success (API_KEY : Option String) (t : Table)
    (B : String) (Y : Int) (j : Json) (P : ChartPayload)
    (cred : Option String) (ms : Int)
    (hdec : chartPayloadFromJson j = some P)
    (hauth : require_api_key API_KEY cred = true) (hB : P.basketId = B) :
    put_route API_KEY t B Y (some j) cred ms =
      (.ok (.obj [("ok", .bool true), ("updatedAtMs", .num (.finite (ms : ℚ)))]),
       upsertRow B Y (.json P.toJson) ms t) := by
  simp [put_route, hdec, upsert_chart, hauth, hB]

/-! ## Claims -/

/-- C1: for every valid ChartPayload P with basketId B and year Y, an
authorized PUT of P at (B, Y) followed by an authorized GET of (B, Y)
returns a payload equal to P: the GET answers 200 with the serialization of
P, and that serialization validates back to exactly P. -/
theorem claim_roundTrip_put_get (API_KEY : Option String) (t : Table)
    (B : String) (Y : Int) (P : ChartPayload)
    (put_key get_key : Option String) (ms : Int)
    (hwf : P.wf) (hB : P.basketId = B)
    (hput : require_api_key API_KEY put_key = true)
    (hget : require_api_key API_KEY get_key = true) :
    get_chart API_KEY (put_route API_KEY t B Y (some P.toJson) put_key ms).2
      B Y get_key = .ok P.toJson ∧
    chartPayloadFromJson P.toJson = some P := by
  have hdec := chartPayloadFromJson_toJson P hwf
  have htab : (put_route API_KEY t B Y (some P.toJson) put_key ms).2 =
      upsertRow B Y (.json P.toJson) ms t := by
    rw [put_route_success API_KEY t B Y P.toJson P put_key ms hdec hput hB]
  refine ⟨?_, hdec⟩
  rw [htab]
  simp [get_chart, hget, selectRow_upsertRow_self, parseStored, hdec]

/-- C1 witness: a concrete payload written and read back intact. -/
theorem claim_roundTrip_put_get_witness :
    (ChartPayload.mk "tech-5" [ChartPoint.mk 1700000000000
      [("AAPL", .finite 190), ("MSFT", .finite 410)]]).wf ∧
    get_chart (some "k")
      (put_route (some "k") [] "tech-5" 2024
        (some (ChartPayload.toJson (ChartPayload.mk "tech-5"
          [ChartPoint.mk 1700000000000 [("AAPL", .finite 190), ("MSFT", .finite 410)]])))
        (some "k") 123).2
      "tech-5" 2024 (some "k") =
      .ok (ChartPayload.toJson (ChartPayload.mk "tech-5"
        [ChartPoint.mk 1700000000000 [("AAPL", .finite 190), ("MSFT", .finite 410)]])) :=
  ⟨by decide, (claim_roundTrip_put_get (some "k") [] "tech-5" 2024
    (ChartPayload.mk "tech-5" [ChartPoint.mk 1700000000000
      [("AAPL", .finite 190), ("MSFT", .finite 410)]])
    (some "k") (some "k") 123 (by decide) rfl (by decide) (by decide)).1⟩

/-- C2 (amended): with no secret configured (unset or empty) the gate
accepts every credential; with a nonempty secret, a GET request, and a PUT
request whose body passes FastAPI body validation (pydantic lax mode, so
coercible numeric strings and non-finite floats validate), presenting a
missing or unequal X-Api-Key are answered 401 with the table untouched and
without dependence on the stored table; a PUT whose body fails that
validation is answered 422 before the gate runs, also leaving the table
unchanged. -/
theorem claim_auth_gate_amended :
    (∀ cred, require_api_key none cred = true ∧
      require_api_key (some "") cred = true) ∧
    (∀ (k : String) (cred : Option String), k ≠ "" → cred ≠ some k →
      require_api_key (some k) cred = false ∧
      (∀ t B Y, get_chart (some k) t B Y cred = .err 401 "Unauthorized") ∧
      (∀ t B Y j P ms, chartPayloadFromJson j = some P →
        put_route (some k) t B Y (some j) cred ms =
          (.err 401 "Unauthorized", t)) ∧
      (∀ t B Y body ms, bodyDecode body = none →
        put_route (some k) t B Y body cred ms =
          (.err 422 "Unprocessable Entity", t))) := by
  constructor
  · intro cred
    exact ⟨rfl, rfl⟩
  · intro k cred hk hcred
    have hf := require_api_key_false k cred hk hcred
    refine ⟨hf, ?_, ?_, ?_⟩
    · intro t B Y
      simp [get_chart, hf]
    · intro t B Y j P ms hdec
      simp [put_route, hdec, upsert_chart, hf]
    · intro t B Y body ms hbody
      exact put_route_invalid_body (some k) t B Y body cred ms hbody

/-- C2 witness: concrete accepted and rejected credentials. -/
theorem claim_auth_gate_amended_witness :
    require_api_key (some "s") none = false ∧
    get_chart (some "s") [] "b" 2024 none = .err 401 "Unauthorized" ∧
    require_api_key none (some "anything") = true := by
  refine ⟨?_, ?_, ?_⟩
  · exact (claim_auth_gate_amended.2 "s" none (by decide) (by decide)).1
  · exact (claim_auth_gate_amended.2 "s" none (by decide) (by decide)).2.1
      [] "b" 2024
  · exact (claim_auth_gate_amended.1 (some "anything")).1

/-- C2 counterexample: with secret "s" configured, a PUT presenting no
credential whose body is malformed is answered 422, not 401. -/
theorem claim_auth_gate_counterexample :
    (put_route (some "s") [] "b" 2024 (some (Json.num (.finite 1))) none
      5).1.statusOf = 422 ∧ (422 : ℕ) ≠ 401 :=
  ⟨rfl, by decide⟩

/-- C3: starting from a fresh database, after any sequence of PUT requests
the table holds at most one row per (basketId, year) key; moreover an upsert
whose key is already present keeps the key list (hence the row count)
unchanged and the key reads back with the new payload and timestamp, so no
second row is ever created for an existing key. -/
theorem claim_unique_key_invariant (API_KEY : Option String)
    (reqs : List PutReq) :
    uniqueKeys (runPuts API_KEY reqs) ∧
    (∀ (t : Table) (b : String) (y : Int) (p : PayloadText) (ms : Int),
      (b, y) ∈ keysOf t →
      keysOf (upsertRow b y p ms t) = keysOf t ∧
      selectRow (upsertRow b y p ms t) b y = some ⟨b, y, p, ms⟩) := by
  constructor
  · exact uniqueKeys_foldPuts API_KEY reqs initTable
      (by simp [uniqueKeys, keysOf, initTable])
  · intro t b y p ms hmem
    exact ⟨keysOf_upsertRow_mem t p ms hmem,
      selectRow_upsertRow_self t b y p ms⟩

/-- C3 witness: two writes to one key from a fresh start, and an in-place
update of an existing key. -/
theorem claim_unique_key_invariant_witness :
    uniqueKeys (runPuts none
      [PutReq.mk "a" 2024 (some (ChartPayload.toJson ⟨"a", []⟩)) none 1,
       PutReq.mk "a" 2024 (some (ChartPayload.toJson ⟨"a", []⟩)) none 2]) ∧
    (("a", (2024 : Int)) ∈ keysOf [⟨"a", 2024, .invalid "x", 0⟩] ∧
      keysOf (upsertRow "a" 2024 (.invalid "y") 9
          [⟨"a", 2024, .invalid "x", 0⟩]) =
        keysOf [⟨"a", 2024, .invalid "x", 0⟩]) :=
  ⟨(claim_unique_key_invariant none
      [PutReq.mk "a" 2024 (some (ChartPayload.toJson ⟨"a", []⟩)) none 1,
       PutReq.mk "a" 2024 (some (ChartPayload.toJson ⟨"a", []⟩)) none 2]).1,
   by decide,
   ((claim_unique_key_invariant none []).2 [⟨"a", 2024, .invalid "x", 0⟩]
      "a" 2024 (.invalid "y") 9 (by decide)).1⟩

/-- C4: an authorized PUT whose validated body carries a basketId different
from the path basketId is answered 400 basketId mismatch, and the table is
left unchanged. -/
theorem claim_basket_mismatch_rejected (API_KEY : Option String) (t : Table)
    (B : String) (Y : Int) (j : Json) (P : ChartPayload)
    (cred : Option String) (ms : Int)
    (hdec : chartPayloadFromJson j = some P)
    (hauth : require_api_key API_KEY cred = true)
    (hne : P.basketId ≠ B) :
    put_route API_KEY t B Y (some j) cred ms =
      (.err 400 "basketId mismatch", t) := by
  simp [put_route, hdec, upsert_chart, hauth, hne]

/-- C4 witness: a body with basketId a sent to path basketId b. -/
theorem claim_basket_mismatch_rejected_witness :
    chartPayloadFromJson (ChartPayload.toJson ⟨"a", []⟩) = some ⟨"a", []⟩ ∧
    put_route none [] "b" 2024 (some (ChartPayload.toJson ⟨"a", []⟩)) none 7 =
      (.err 400 "basketId mismatch", []) :=
  ⟨rfl, claim_basket_mismatch_rejected none [] "b" 2024
    (ChartPayload.toJson ⟨"a", []⟩) ⟨"a", []⟩ none 7 rfl rfl (by decide)⟩

/-- C5: an authorized GET of a key whose stored payload text does not decode
to the ChartPayload shape is answered HTTP 500 — whether the text is not
valid JSON (the handler answers 500 Corrupted payload) or is valid JSON that
fails the lax response-model validation (the framework answers 500).
Stored texts that lax validation accepts, such as numeric strings for the
numeric fields or the NaN and Infinity constants, are not in this set. -/
theorem claim_corrupt_read_500 (API_KEY : Option String) (t : Table)
    (B : String) (Y : Int) (cred : Option String) (row : Row)
    (hauth : require_api_key API_KEY cred = true)
    (hrow : selectRow t B Y = some row)
    (hbad : (parseStored row.payload).bind chartPayloadFromJson = none) :
    (get_chart API_KEY t B Y cred).statusOf = 500 := by
  cases hp : parseStored row.payload with
  | none => simp [get_chart, hauth, hrow, hp, Resp.statusOf]
  | some j =>
    have hj : chartPayloadFromJson j = none := by
      simpa [hp] using hbad
    simp [get_chart, hauth, hrow, hp, hj, Resp.statusOf]

/-- C5 witness: a stored payload that is not valid JSON is read as 500. -/
theorem claim_corrupt_read_500_witness :
    selectRow [⟨"b", 2024, PayloadText.invalid "oops", 0⟩] "b" 2024 =
      some ⟨"b", 2024, PayloadText.invalid "oops", 0⟩ ∧
    (get_chart none [⟨"b", 2024, PayloadText.invalid "oops", 0⟩] "b" 2024
      none).statusOf = 500 :=
  ⟨rfl, claim_corrupt_read_500 none [⟨"b", 2024, PayloadText.invalid "oops", 0⟩]
    "b" 2024 none ⟨"b", 2024, PayloadText.invalid "oops", 0⟩ rfl rfl rfl⟩

/-- C6: an authorized GET of a key that no PUT since the fresh start ever
targeted is answered 404 Not found, not an empty or default payload. -/
theorem claim_never_written_404 (API_KEY : Option String)
    (reqs : List PutReq) (B : String) (Y : Int) (cred : Option String)
    (hauth : require_api_key API_KEY cred = true)
    (hnever : ∀ r ∈ reqs, ¬(r.basket_id = B ∧ r.year = Y)) :
    get_chart API_KEY (runPuts API_KEY reqs) B Y cred =
      .err 404 "Not found" := by
  have hsel : selectRow (runPuts API_KEY reqs) B Y = none :=
    selectRow_foldPuts_none API_KEY reqs initTable B Y hnever rfl
  simp [get_chart, hauth, hsel]

/-- C6 witness: a write to (a, 2023) followed by a read of (b, 2024). -/
theorem claim_never_written_404_witness :
    get_chart none (runPuts none
      [PutReq.mk "a" 2023 (some (ChartPayload.toJson ⟨"a", []⟩)) none 1])
      "b" 2024 none = .err 404 "Not found" :=
  claim_never_written_404 none
    [PutReq.mk "a" 2023 (some (ChartPayload.toJson ⟨"a", []⟩)) none 1]
    "b" 2024 none rfl (by decide)

/-- C7: a PUT at key (B1, Y1) leaves the row found at any key (B2, Y2) that
differs in basketId or in year unchanged; in particular this holds for every
successful write. -/
theorem claim_key_isolation (API_KEY : Option String) (t : Table)
    (B1 B2 : String) (Y1 Y2 : Int) (body : Option Json)
    (cred : Option String) (ms : Int) (hne : ¬(B1 = B2 ∧ Y1 = Y2)) :
    selectRow (put_route API_KEY t B1 Y1 body cred ms).2 B2 Y2 =
      selectRow t B2 Y2 :=
  selectRow_put_route_ne API_KEY t body cred ms hne

/-- C7 witness: a successful write to (a, 2024) does not disturb the row
stored at (b, 2025). -/
theorem claim_key_isolation_witness :
    ¬("a" = "b" ∧ (2024 : Int) = 2025) ∧
    selectRow (put_route none [⟨"b", 2025, PayloadText.invalid "z", 3⟩]
        "a" 2024 (some (ChartPayload.toJson ⟨"a", []⟩)) none 9).2 "b" 2025 =
      selectRow [⟨"b", 2025, PayloadText.invalid "z", 3⟩] "b" 2025 :=
  ⟨by decide, claim_key_isolation none
    [⟨"b", 2025, PayloadText.invalid "z", 3⟩] "a" "b" 2024 2025
    (some (ChartPayload.toJson ⟨"a", []⟩)) none 9 (by decide)⟩

/-- C8: two successive authorized identical writes of (B, Y, P) at times ms1
then ms2 leave exactly the row a single write at ms2 leaves: the stored
payload is the serialization of P, the stored updatedAtMs is ms2 (the time
of the last write), and the second response reports ok with
updatedAtMs = ms2. -/
theorem claim_idempotent_rewrite (API_KEY : Option String) (t : Table)
    (B : String) (Y : Int) (j : Json) (P : ChartPayload)
    (cred : Option String) (ms1 ms2 : Int)
    (hdec : chartPayloadFromJson j = some P)
    (hauth : require_api_key API_KEY cred = true) (hB : P.basketId = B) :
    selectRow (put_route API_KEY
        (put_route API_KEY t B Y (some j) cred ms1).2
        B Y (some j) cred ms2).2 B Y =
      selectRow (put_route API_KEY t B Y (some j) cred ms2).2 B Y ∧
    selectRow (put_route API_KEY
        (put_route API_KEY t B Y (some j) cred ms1).2
        B Y (some j) cred ms2).2 B Y =
      some ⟨B, Y, .json P.toJson, ms2⟩ ∧
    (put_route API_KEY (put_route API_KEY t B Y (some j) cred ms1).2
        B Y (some j) cred ms2).1 =
      .ok (.obj [("ok", .bool true), ("updatedAtMs", .num (.finite (ms2 : ℚ)))]) := by
  have h1 := put_route_success API_KEY t B Y j P cred ms1 hdec hauth hB
  have h2 := put_route_success API_KEY (upsertRow B Y (.json P.toJson) ms1 t)
    B Y j P cred ms2 hdec hauth hB
  have honce := put_route_success API_KEY t B Y j P cred ms2 hdec hauth hB
  rw [h1, honce]
  simp only [Prod.snd]
  rw [h2]
  refine ⟨?_, ?_, rfl⟩ <;>
    simp [selectRow_upsertRow_self]

/-- C8 witness: a concrete double write. -/
theorem claim_idempotent_rewrite_witness :
    selectRow (put_route none
        (put_route none [] "a" 2024 (some (ChartPayload.toJson ⟨"a", []⟩))
          none 10).2
        "a" 2024 (some (ChartPayload.toJson ⟨"a", []⟩)) none 20).2 "a" 2024 =
      some ⟨"a", 2024, .json (ChartPayload.toJson ⟨"a", []⟩), 20⟩ :=
  (claim_idempotent_rewrite none [] "a" 2024
    (ChartPayload.toJson ⟨"a", []⟩) ⟨"a", []⟩ none 10 20 rfl rfl rfl).2.1

/-- C9 (amended): the endpoint function checks authorization before the
basketId mismatch check, so with a nonempty secret and a missing or wrong
credential every PUT whose body passes FastAPI body validation (lax mode)
is answered 401, never 400, even when its basketId mismatches the path;
however FastAPI body binding runs before the endpoint function, so a PUT
whose body fails that validation is answered 422, not 401, even with a
wrong credential. -/
theorem claim_auth_before_validation_amended (k : String) (t : Table)
    (B : String) (Y : Int) (j : Json) (P : ChartPayload)
    (cred : Option String) (ms : Int) (hk : k ≠ "") (hcred : cred ≠ some k)
    (hdec : chartPayloadFromJson j = some P) :
    put_route (some k) t B Y (some j) cred ms =
      (.err 401 "Unauthorized", t) ∧
    (∀ body, bodyDecode body = none →
      put_route (some k) t B Y body cred ms =
        (.err 422 "Unprocessable Entity", t)) := by
  have hf := require_api_key_false k cred hk hcred
  constructor
  · simp [put_route, hdec, upsert_chart, hf]
  · intro body hbody
    exact put_route_invalid_body (some k) t B Y body cred ms hbody

/-- C9 witness: with a wrong credential, a validating body whose basketId
mismatches the path is still answered 401, and a malformed body 422. -/
theorem claim_auth_before_validation_amended_witness :
    put_route (some "s") [] "pf" 2025
      (some (ChartPayload.toJson ⟨"x", []⟩)) none 7 =
      (.err 401 "Unauthorized", []) ∧
    put_route (some "s") [] "pf" 2025 none none 7 =
      (.err 422 "Unprocessable Entity", []) :=
  ⟨(claim_auth_before_validation_amended "s" [] "pf" 2025
      (ChartPayload.toJson ⟨"x", []⟩) ⟨"x", []⟩ none 7
      (by decide) (by decide) rfl).1,
   (claim_auth_before_validation_amended "s" [] "pf" 2025
      (ChartPayload.toJson ⟨"x", []⟩) ⟨"x", []⟩ none 7
      (by decide) (by decide) rfl).2 none rfl⟩

/-- C9 counterexample: with secret s configured and no credential presented,
a PUT whose body is not a ChartPayload is answered 422 (a body-validation
failure), not 401: FastAPI validates the body before the gate runs. -/
theorem claim_auth_before_validation_counterexample :
    (put_route (some "s") [] "pf" 2025 (some (Json.bool true)) none
      7).1.statusOf = 422 ∧ (422 : ℕ) ≠ 401 :=
  ⟨rfl, by decide⟩

/-- C10 (amended): an accepted PUT stores the serialization of the
validated model, not the raw body: the stored row at (B, Y) holds exactly
the serialized validated payload, whose top-level fields are exactly
basketId and data and whose points carry exactly timestamp and prices (so
any extra JSON fields of the body are dropped); and, provided every price of
the validated payload is finite, a following authorized GET returns exactly
that normalized payload.  A non-finite price is stored as null (pydantic
writes NaN and Infinity as null by default) and so fails float validation
when read back. -/
theorem claim_stores_normalized_payload (API_KEY : Option String) (t : Table)
    (B : String) (Y : Int) (j : Json) (P : ChartPayload)
    (put_key get_key : Option String) (ms : Int)
    (hdec : chartPayloadFromJson j = some P)
    (hput : require_api_key API_KEY put_key = true)
    (hget : require_api_key API_KEY get_key = true)
    (hB : P.basketId = B) :
    selectRow (put_route API_KEY t B Y (some j) put_key ms).2 B Y =
      some ⟨B, Y, .json P.toJson, ms⟩ ∧
    objKeys P.toJson = ["basketId", "data"] ∧
    (∀ pt ∈ P.data, objKeys pt.toJson = ["timestamp", "prices"]) ∧
    (P.finitePrices →
      get_chart API_KEY (put_route API_KEY t B Y (some j) put_key ms).2
        B Y get_key = .ok P.toJson) := by
  have htab : (put_route API_KEY t B Y (some j) put_key ms).2 =
      upsertRow B Y (.json P.toJson) ms t := by
    rw [put_route_success API_KEY t B Y j P put_key ms hdec hput hB]
  refine ⟨?_, rfl, ?_, ?_⟩
  · rw [htab]
    exact selectRow_upsertRow_self t B Y _ ms
  · intro pt _
    rfl
  · intro hfin
    have hwf : P.wf := fun pt hpt =>
      ⟨chartPayloadFromJson_keysNodup j P hdec pt hpt, hfin pt hpt⟩
    rw [htab]
    simp [get_chart, hget, selectRow_upsertRow_self, parseStored,
      chartPayloadFromJson_toJson P hwf]

/-- C10 counterexample: a PUT whose validated payload carries a NaN price
succeeds, but the stored serialization writes that price as null, so the
subsequent GET fails response validation with HTTP 500 instead of returning
the normalized payload. -/
theorem claim_stores_normalized_payload_counterexample :
    chartPayloadFromJson (Json.obj [("basketId", Json.str "b"),
        ("data", Json.arr [Json.obj [("timestamp", Json.num (.finite 1)),
          ("prices", Json.obj [("A", Json.num JsonNum.nan)])]])]) =
      some (ChartPayload.mk "b" [ChartPoint.mk 1 [("A", JsonNum.nan)]]) ∧
    (put_route none [] "b" 2024
      (some (Json.obj [("basketId", Json.str "b"),
        ("data", Json.arr [Json.obj [("timestamp", Json.num (.finite 1)),
          ("prices", Json.obj [("A", Json.num JsonNum.nan)])]])]))
      none 3).1.statusOf = 200 ∧
    (get_chart none
      (put_route none [] "b" 2024
        (some (Json.obj [("basketId", Json.str "b"),
          ("data", Json.arr [Json.obj [("timestamp", Json.num (.finite 1)),
            ("prices", Json.obj [("A", Json.num JsonNum.nan)])]])]))
        none 3).2
      "b" 2024 none).statusOf = 500 ∧
    (500 : ℕ) ≠ 200 :=
  ⟨rfl, rfl, rfl, by decide⟩

/-- C10 witness: a body carrying an extra top-level field is stored as the
normalized two-field payload, and the GET of its finite-priced payload
returns it. -/
theorem claim_stores_normalized_payload_witness :
    chartPayloadFromJson (Json.obj [("basketId", .str "nb"),
      ("data", .arr []), ("extra", .null)]) =
      some (ChartPayload.mk "nb" []) ∧
    selectRow (put_route none [] "nb" 2024
        (some (Json.obj [("basketId", .str "nb"), ("data", .arr []),
          ("extra", .null)])) none 4).2 "nb" 2024 =
      some ⟨"nb", 2024, .json (ChartPayload.toJson (ChartPayload.mk "nb" [])), 4⟩ ∧
    objKeys (ChartPayload.toJson (ChartPayload.mk "nb" [])) =
      ["basketId", "data"] ∧
    get_chart none (put_route none [] "nb" 2024
        (some (Json.obj [("basketId", .str "nb"), ("data", .arr []),
          ("extra", .null)])) none 4).2 "nb" 2024 none =
      .ok (ChartPayload.toJson (ChartPayload.mk "nb" [])) :=
  ⟨rfl,
   (claim_stores_normalized_payload none [] "nb" 2024
      (Json.obj [("basketId", .str "nb"), ("data", .arr []),
        ("extra", .null)]) (ChartPayload.mk "nb" []) none none 4
      rfl rfl rfl rfl).1,
   (claim_stores_normalized_payload none [] "nb" 2024
      (Json.obj [("basketId", .str "nb"), ("data", .arr []),
        ("extra", .null)]) (ChartPayload.mk "nb" []) none none 4
      rfl rfl rfl rfl).2.1,
   (claim_stores_normalized_payload none [] "nb" 2024
      (Json.obj [("basketId", .str "nb"), ("data", .arr []),
        ("extra", .null)]) (ChartPayload.mk "nb" []) none none 4
      rfl rfl rfl rfl).2.2.2 (by decide)⟩
